import Mathlib

/-!
# handsomefox/test_task: the authentication layer

A shallow embedding of `api.go`, `jwt.go`, `database.go` and `types.go`.

* Go strings are `String`; `strings.Split` is only used with one-character separators.
* `time.Time` is an `Int`: nanoseconds since the Unix epoch.
* A Go `error` is an `Option`: `none` is `nil`.
* `http.ResponseWriter` is an explicit state that every handler threads through.
* The environment (`JWT_SECRET_KEY`), the wall clock, the file system and the
  `golang-jwt/jwt/v4` encoding and HMAC primitives are explicit parameters.
* The control flow of the library calls `jwt.ParseWithClaims`, `RegisteredClaims.Valid`,
  `jwt.NewNumericDate` and `SignedString` follows `golang-jwt/jwt/v4`; `strconv.ParseInt`,
  `strings.Split`, `strings.HasPrefix` and `http.Error` follow the Go standard library.
* `HandleUploadPicture` (multipart parsing, UUID generation, file creation) is not embedded.
-/

deriving instance DecidableEq for Except

namespace TestTask

/-! ## Strings -/

/-- The pieces of a character list between occurrences of `sep`; the empty list gives one
empty piece, as `strings.Split("", sep)` does. -/
def splitChars (sep : Char) : List Char → List (List Char)
  | [] => [[]]
  | c :: cs =>
    if c = sep then [] :: splitChars sep cs
    else
      match splitChars sep cs with
      | [] => [[c]]
      | p :: ps => (c :: p) :: ps

/-- Go `strings.Split(s, sep)` for a one-character separator. -/
def Split (s : String) (sep : Char) : List String :=
  (splitChars sep s.data).map String.mk

/-- Go `strings.HasPrefix(s, p)`. -/
def HasPrefix (s p : String) : Bool :=
  p.data.isPrefixOf s.data

/-! ## types.go -/

/-- Row of the `images` table (`types.go`). `ID` is an int64, `UserID` an int32. -/
structure Image where
  ID : Int
  UserID : Int
  ImagePath : String
  ImageURL : String
deriving DecidableEq, Repr

/-- Row of the `users` table (`types.go`). `ID` is an int64. -/
structure User where
  ID : Int
  Username : String
  PasswordHash : String
deriving DecidableEq, Repr

/-! ## Errors -/

/-- Plain Go error values that occur in the program. -/
inductive GoError where
  | ErrUnauthorized
  | ErrNoRows
  | ErrSyntax
  | ErrRange
  | other (msg : String)
deriving DecidableEq, Repr

/-- The `StatusError` struct of `api.go`; `Err = none` is a nil error. -/
structure StatusError where
  Err : Option GoError
  Status : Nat
deriving DecidableEq, Repr

/-- A non-nil `error` returned by an `APIFunc`: either a `*StatusError` or any other error. -/
inductive APIError where
  | plain (e : GoError)
  | status (e : StatusError)
deriving DecidableEq, Repr

/-! ## net/http -/

def StatusOK : Nat := 200
def StatusBadRequest : Nat := 400
def StatusUnauthorized : Nat := 401
def StatusNotFound : Nat := 404
def StatusMethodNotAllowed : Nat := 405
def StatusInternalServerError : Nat := 500

/-- Go `http.StatusText` on the codes the program uses. -/
def StatusText (code : Nat) : String :=
  if code = 200 then "OK"
  else if code = 400 then "Bad Request"
  else if code = 401 then "Unauthorized"
  else if code = 404 then "Not Found"
  else if code = 405 then "Method Not Allowed"
  else if code = 500 then "Internal Server Error"
  else ""

structure HandleLoginRequest where
  Username : String
  Password : String
deriving DecidableEq, Repr

/-- What the handlers read from an `*http.Request`. -/
structure Request where
  Method : String
  /-- Result of `r.Header.Get("Authorization")`: the empty string when the header is absent. -/
  Authorization : String
  /-- Result of `r.URL.Query().Get("id")`. -/
  queryID : String
  /-- Outcome of `json.NewDecoder(r.Body).Decode` into a `HandleLoginRequest`. -/
  jsonBody : Except GoError HandleLoginRequest

/-- One write to the response body. -/
inductive Payload where
  | statusError (e : StatusError)
  | login (token : String)
  | upload (url : String)
  | images (imgs : List Image)
  | text (s : String)
  | file (content : String)
deriving DecidableEq, Repr

/-- State of an `http.ResponseWriter`: `status = none` until the header has been written. -/
structure ResponseWriter where
  header : List (String × String)
  status : Option Nat
  body : List Payload
deriving DecidableEq, Repr

/-- A response nothing has been written to. -/
def ResponseWriter.fresh : ResponseWriter := ⟨[], none, []⟩

/-- Method `w.Header().Set(k, v)`. -/
def ResponseWriter.SetHeader (w : ResponseWriter) (k v : String) : ResponseWriter :=
  { w with header := (k, v) :: w.header.filter (fun kv => kv.1 != k) }

/-- Method `w.WriteHeader(code)`: only the first call sets the status. -/
def ResponseWriter.WriteHeader (w : ResponseWriter) (code : Nat) : ResponseWriter :=
  match w.status with
  | none => { w with status := some code }
  | some _ => w

/-- Method `w.Write(p)`: writes status 200 first when no header was written yet. -/
def ResponseWriter.Write (w : ResponseWriter) (p : Payload) : ResponseWriter :=
  let w1 := w.WriteHeader StatusOK
  { w1 with body := w1.body ++ [p] }

/-- Go `http.Error(w, msg, code)`. -/
def httpError (w : ResponseWriter) (msg : String) (code : Nat) : ResponseWriter :=
  let w1 := w.SetHeader "Content-Type" "text/plain; charset=utf-8"
  let w2 := w1.SetHeader "X-Content-Type-Options" "nosniff"
  (w2.WriteHeader code).Write (.text msg)

/-- `writeJSON` of `api.go`; encoding the program's response types does not fail. -/
def writeJSON (w : ResponseWriter) (v : Payload) : ResponseWriter × Option APIError :=
  ((w.SetHeader "Content-Type" "application/json; charset=UTF-8").Write v, none)

/-- `APIFunc` of `api.go`. -/
abbrev APIFunc := ResponseWriter → Request → ResponseWriter × Option APIError

/-- `makeHandler` of `api.go`: runs `f` and turns its error into a response. -/
def makeHandler (f : APIFunc) (w : ResponseWriter) (r : Request) : ResponseWriter :=
  let (w1, err) := f w r
  match err with
  | some (.status statusError) =>
    if statusError.Err.isSome then
      (writeJSON (w1.WriteHeader statusError.Status) (.statusError statusError)).1
    else
      httpError w1 (StatusText statusError.Status) statusError.Status
  | some (.plain _) =>
    httpError w1 (StatusText StatusInternalServerError) StatusInternalServerError
  | none => w1

/-! ## strconv -/

/-- Go `strconv.ParseUint(s, 10, bitSize)` on a non-empty digit string: the digit loop, with the
64-bit multiplication cutoff and the `bitSize` maximum. A range error wins over a later syntax
error, since the loop returns at the first failure. -/
def parseUintLoop (maxVal : Nat) : List Char → Nat → Except GoError Nat
  | [], n => .ok n
  | c :: cs, n =>
    if '0' ≤ c ∧ c ≤ '9' then
      let d := c.toNat - '0'.toNat
      if n ≥ (2 ^ 64 - 1) / 10 + 1 then .error .ErrRange
      else
        let n1 := n * 10 + d
        if n1 > maxVal then .error .ErrRange
        else parseUintLoop maxVal cs n1
    else .error .ErrSyntax

/-- Go `strconv.ParseInt(s, 10, 32)`: optional sign, decimal digits, value within int32. -/
def ParseInt32 (s : String) : Except GoError Int :=
  match s.data with
  | [] => .error .ErrSyntax
  | c :: cs =>
    let neg := c = '-'
    let digits := if c = '+' ∨ c = '-' then cs else c :: cs
    match digits with
    | [] => .error .ErrSyntax
    | _ :: _ =>
      match parseUintLoop (2 ^ 32 - 1) digits 0 with
      | .error e => .error e
      | .ok un =>
        if ¬ neg ∧ un ≥ 2 ^ 31 then .error .ErrRange
        else if neg ∧ un > 2 ^ 31 then .error .ErrRange
        else .ok (if neg then - (un : Int) else (un : Int))

/-! ## github.com/golang-jwt/jwt/v4 -/

namespace jwt

/-- Go `time.Second` in nanoseconds. -/
def Second : Int := 1000000000

/-- Go `time.Hour` in nanoseconds. -/
def Hour : Int := 3600 * Second

/-- The library variable `TimePrecision`, at its default of one second. -/
def TimePrecision : Int := Second

/-- Go `t.Truncate(d)`: rounds `t` down to a multiple of `d`; unchanged for `d ≤ 0`. -/
def Truncate (t d : Int) : Int :=
  if d ≤ 0 then t else t - t % d

/-- Library `jwt.NewNumericDate(t)`: truncates to `TimePrecision`. -/
def NewNumericDate (t : Int) : Int := Truncate t TimePrecision

/-- Library struct `jwt.RegisteredClaims`; a nil `*NumericDate` is `none`. -/
structure RegisteredClaims where
  Issuer : String
  Subject : String
  Audience : List String
  ExpiresAt : Option Int
  NotBefore : Option Int
  IssuedAt : Option Int
  ID : String
deriving DecidableEq, Repr

/-- The claims as they read back from the JSON form: `NumericDate.MarshalJSON` truncates every
date to `TimePrecision`. -/
def RegisteredClaims.onWire (c : RegisteredClaims) : RegisteredClaims :=
  { c with
    ExpiresAt := c.ExpiresAt.map NewNumericDate
    NotBefore := c.NotBefore.map NewNumericDate
    IssuedAt := c.IssuedAt.map NewNumericDate }

/-- Library `verifyExp`: a missing `exp` passes unless required; otherwise `now.Before(exp)`. -/
def verifyExp (exp : Option Int) (now : Int) (required : Bool) : Bool :=
  match exp with
  | none => !required
  | some e => decide (now < e)

/-- Library `verifyIat`: a missing `iat` passes unless required; otherwise `now` is not before
it. -/
def verifyIat (iat : Option Int) (now : Int) (required : Bool) : Bool :=
  match iat with
  | none => !required
  | some t => decide (t ≤ now)

/-- Library `verifyNbf`: a missing `nbf` passes unless required; otherwise `now` is not before
it. -/
def verifyNbf (nbf : Option Int) (now : Int) (required : Bool) : Bool :=
  match nbf with
  | none => !required
  | some t => decide (t ≤ now)

/-- Library `RegisteredClaims.Valid()`: checks `exp`, `iat` and `nbf`, none of them required.
Issuer, subject, audience and id are not looked at. -/
def RegisteredClaims.Valid (c : RegisteredClaims) (now : Int) : Bool :=
  verifyExp c.ExpiresAt now false && verifyIat c.IssuedAt now false
    && verifyNbf c.NotBefore now false

/-- The encoding and keyed-hash primitives of the library, kept abstract (base64url, JSON,
HMAC-SHA2). -/
structure Primitives where
  /-- Header segment for a signing algorithm name: `EncodeSegment` of the JSON header. -/
  encodeHeader : String → String
  /-- The `alg` string of a header segment; `none` when the segment does not decode or has no
  `alg` string. -/
  decodeHeader : String → Option String
  /-- Claims segment: `EncodeSegment` of the JSON claims. -/
  encodeClaims : RegisteredClaims → String
  /-- Claims of a claims segment; `none` when the segment does not decode. -/
  decodeClaims : String → Option RegisteredClaims
  /-- Method `SigningMethodHMAC.Sign`, by algorithm name, signing string and key. -/
  hmacSign : String → String → String → String
  /-- Method `SigningMethodHMAC.Verify`, by algorithm name, signing string, signature segment
  and key. -/
  hmacVerify : String → String → String → String → Bool

/-- Signing methods the library registers. -/
inductive SigningMethod where
  | HMAC (alg : String)
  | keyTyped (alg : String)
deriving DecidableEq, Repr

/-- Library `jwt.GetSigningMethod`: the HMAC family, and the methods that need a typed key
(RSA, RSA-PSS, ECDSA, EdDSA, none). -/
def GetSigningMethod (alg : String) : Option SigningMethod :=
  if alg ∈ ["HS256", "HS384", "HS512"] then some (.HMAC alg)
  else if alg ∈ ["RS256", "RS384", "RS512", "PS256", "PS384", "PS512",
      "ES256", "ES384", "ES512", "EdDSA", "none"] then some (.keyTyped alg)
  else none

/-- Method `Verify` with a `[]byte` key: only the HMAC family accepts such a key. -/
def SigningMethod.Verify (P : Primitives) (m : SigningMethod)
    (signingString signature key : String) : Bool :=
  match m with
  | .HMAC alg => P.hmacVerify alg signingString signature key
  | .keyTyped _ => false

/-- Library struct `jwt.Token`, after parsing. -/
structure Token where
  Method : SigningMethod
  Claims : RegisteredClaims
  Signature : String
  Valid : Bool
deriving DecidableEq, Repr

/-- Library `jwt.ParseWithClaims(tokenString, &RegisteredClaims{}, keyFunc)` with a key function
that always returns `key`: three dot-separated segments, a header naming a registered method,
decodable claims, `Claims.Valid()` and the signature check; any failure is an error. -/
def ParseWithClaims (P : Primitives) (now : Int) (tokenString key : String) :
    Except GoError Token :=
  match Split tokenString '.' with
  | [h, c, sig] =>
    match P.decodeHeader h, P.decodeClaims c with
    | some alg, some claims =>
      match GetSigningMethod alg with
      | none => .error (.other "signing method (alg) is unavailable.")
      | some method =>
        if claims.Valid now && method.Verify P (h ++ "." ++ c) sig key then
          .ok { Method := method, Claims := claims, Signature := sig, Valid := true }
        else .error (.other "token validation failed")
    | _, _ => .error (.other "token is malformed")
  | _ => .error (.other "token contains an invalid number of segments")

/-- Library `jwt.NewWithClaims(jwt.SigningMethodHS512, claims).SignedString(key)`. -/
def SignedStringHS512 (P : Primitives) (claims : RegisteredClaims) (key : String) :
    Except GoError String :=
  let sstr := P.encodeHeader "HS512" ++ "." ++ P.encodeClaims claims
  .ok (sstr ++ "." ++ P.hmacSign "HS512" sstr key)

end jwt

/-! ## jwt.go -/

def JWTAccessTokenExpirationTime : Int := jwt.Hour * 12

def JWTIssuer : String := "test_task_app"

/-- The `Token` struct of `jwt.go`. -/
structure Token where
  Access : String
deriving DecidableEq, Repr

/-- The claim set `NewJWTAccessToken` builds for `user` at time `now`. -/
def newClaims (now : Int) (user : User) : jwt.RegisteredClaims :=
  { Issuer := JWTIssuer
    Subject := ""
    Audience := [user.Username]
    ExpiresAt := some (jwt.NewNumericDate (now + JWTAccessTokenExpirationTime))
    NotBefore := none
    IssuedAt := some now
    ID := toString user.ID }

/-- `NewJWTAccessToken` of `jwt.go`; `secret` is the value of `JWT_SECRET_KEY`, `now` the
result of `time.Now()`. -/
def NewJWTAccessToken (P : jwt.Primitives) (secret : String) (now : Int) (user : User) :
    Except GoError Token :=
  match jwt.SignedStringHS512 P (newClaims now user) secret with
  | .error err => .error err
  | .ok token => .ok { Access := token }

/-- `VerifyJWTToken` of `jwt.go`; `now` is the time the library reads while validating. -/
def VerifyJWTToken (P : jwt.Primitives) (secret : String) (now : Int) (token : String) :
    Option jwt.RegisteredClaims × Bool :=
  match jwt.ParseWithClaims P now token secret with
  | .error _ => (none, false)
  | .ok tkn => (some tkn.Claims, tkn.Valid)

/-! ## database.go -/

/-- The two tables the queries read, in the order the database returns their rows. A lost
connection or a failing scan is not represented: a query fails only with `sql.ErrNoRows`. -/
structure PostgreSQLDatabase where
  users : List User
  images : List Image

/-- Query `GetAllUserImages`: `SELECT ... FROM images WHERE user_id = $1`. -/
def PostgreSQLDatabase.GetAllUserImages (pq : PostgreSQLDatabase) (userID : Int) :
    Except GoError (List Image) :=
  .ok (pq.images.filter (fun i => i.UserID = userID))

/-- Query `GetImageByURL`: `SELECT ... FROM images WHERE image_url = $1`, first row scanned;
`sql.ErrNoRows` when there is none. -/
def PostgreSQLDatabase.GetImageByURL (pq : PostgreSQLDatabase) (url : String) :
    Except GoError Image :=
  match pq.images.find? (fun i => i.ImageURL = url) with
  | some i => .ok i
  | none => .error .ErrNoRows

/-- Query `GetUserByNamePassword`: `SELECT ... FROM users WHERE username = $1`, first row
scanned; `sql.ErrNoRows` when there is none. -/
def PostgreSQLDatabase.GetUserByNamePassword (pq : PostgreSQLDatabase) (username : String) :
    Except GoError User :=
  match pq.users.find? (fun u => u.Username = username) with
  | some u => .ok u
  | none => .error .ErrNoRows

/-! ## api.go -/

/-- What the handlers read from the process and its surroundings. -/
structure Env where
  /-- Encoding and HMAC primitives of the token library. -/
  P : jwt.Primitives
  /-- Value of the environment variable `JWT_SECRET_KEY`. -/
  secret : String
  /-- Wall-clock time of the request. -/
  now : Int
  /-- Whether `bcrypt.CompareHashAndPassword(hash, pwd)` returns nil. -/
  bcryptMatches : String → String → Bool
  /-- Outcome of `os.Open(path)` followed by reading the whole file. -/
  openFile : String → Except GoError String

structure APIServer where
  db : PostgreSQLDatabase
  listenAddr : String

/-- `verifyPassword` of `api.go`. -/
def verifyPassword (E : Env) (pwd hash : String) : Bool :=
  E.bcryptMatches hash pwd

/-- `APIAuthFunc` of `api.go`. -/
abbrev APIAuthFunc :=
  jwt.RegisteredClaims → ResponseWriter → Request → ResponseWriter × Option APIError

/-- `HandleLogin` of `api.go`. -/
def APIServer.HandleLogin (E : Env) (s : APIServer) : APIFunc := fun w r =>
  if r.Method ≠ "POST" then
    (w, some (.status { Err := none, Status := StatusMethodNotAllowed }))
  else
    match r.jsonBody with
    | .error err => (w, some (.status { Err := some err, Status := StatusBadRequest }))
    | .ok resp =>
      match s.db.GetUserByNamePassword resp.Username with
      | .error err => (w, some (.status { Err := some err, Status := StatusNotFound }))
      | .ok user =>
        if ¬ verifyPassword E resp.Password user.PasswordHash then
          (w, some (.status { Err := some .ErrUnauthorized, Status := StatusUnauthorized }))
        else
          match NewJWTAccessToken E.P E.secret E.now user with
          | .error err =>
            (w, some (.status { Err := some err, Status := StatusInternalServerError }))
          | .ok token => writeJSON w (.login token.Access)

/-- The loop body of `HandleGetAllImages`: the new `ImageURL` of one image. -/
def imageURL (listenAddr : String) (stored : String) : String :=
  let url := listenAddr ++ "/?id=" ++ stored
  if !HasPrefix url "http://" || !HasPrefix url "https://" then "http://" ++ url else url

/-- `HandleGetAllImages` of `api.go`. -/
def APIServer.HandleGetAllImages (s : APIServer) : APIAuthFunc := fun claims w r =>
  if r.Method ≠ "GET" then
    (w, some (.status { Err := none, Status := StatusMethodNotAllowed }))
  else
    match ParseInt32 claims.ID with
    | .error err => (w, some (.status { Err := some err, Status := StatusInternalServerError }))
    | .ok userID =>
      match s.db.GetAllUserImages userID with
      | .error err =>
        (w, some (.status { Err := some err, Status := StatusInternalServerError }))
      | .ok images =>
        let images := images.map (fun i => { i with ImageURL := imageURL s.listenAddr i.ImageURL })
        writeJSON w (.images images)

/-- `HandleGetImage` of `api.go`. -/
def APIServer.HandleGetImage (E : Env) (s : APIServer) : APIAuthFunc := fun claims w r =>
  if r.Method ≠ "GET" then
    (w, some (.status { Err := none, Status := StatusMethodNotAllowed }))
  else
    match ParseInt32 claims.ID with
    | .error err => (w, some (.status { Err := some err, Status := StatusInternalServerError }))
    | .ok userID =>
      let id := r.queryID
      match s.db.GetImageByURL id with
      | .error err =>
        (w, some (.status { Err := some err, Status := StatusInternalServerError }))
      | .ok img =>
        if img.UserID ≠ userID then
          (w, some (.status { Err := some .ErrUnauthorized, Status := StatusUnauthorized }))
        else
          let w1 := w.SetHeader "Content-Type" "application/octet-stream"
          match E.openFile ("./saved_images/" ++ img.ImagePath) with
          | .error err =>
            (w1, some (.status { Err := some err, Status := StatusInternalServerError }))
          | .ok content => (w1.Write (.file content), none)

/-- `authMiddleware` of `api.go`. `VerifyJWTToken` returns a nil claims pointer only together
with `ok = false`, so the last branch is never taken. -/
def authMiddleware (E : Env) (f : APIAuthFunc) : APIFunc := fun w r =>
  let auth := r.Authorization
  let header := Split auth ' '
  if header.length ≠ 2 then (w, some (.plain .ErrUnauthorized))
  else
    match VerifyJWTToken E.P E.secret E.now (header.getD 1 "") with
    | (_, false) =>
      (w, some (.status { Err := some .ErrUnauthorized, Status := StatusUnauthorized }))
    | (some claims, true) => f claims w r
    | (none, true) => (w, some (.plain (.other "nil pointer dereference")))

/-! ## A small instance of the library primitives

Used to evaluate the definitions on concrete requests and tokens. Segments are short tags: a
header segment is `h` followed by the algorithm name, the claims segments `c1`, `c2`, `c3` stand
for three fixed claim sets, and a signature is the key followed by the signing string without
its dot. -/

/-- A claim set for user id `id` with audience `alice`. -/
def sampleClaims (issuer : String) (exp iat : Option Int) (id : String) :
    jwt.RegisteredClaims :=
  { Issuer := issuer, Subject := "", Audience := ["alice"], ExpiresAt := exp,
    NotBefore := none, IssuedAt := iat, ID := id }

/-- Tagged-text primitives: `c1` is a token of this service for user 7 issued at second 7,
`c2` the same with a foreign issuer, `c3` a foreign-issuer token without dates. -/
def samplePrimitives : jwt.Primitives where
  encodeHeader alg := "h" ++ alg
  decodeHeader s :=
    match s.data with
    | 'h' :: rest => some (String.mk rest)
    | _ => none
  encodeClaims c :=
    if c.Issuer = JWTIssuer then "c1" else if c.ExpiresAt = none then "c3" else "c2"
  decodeClaims s :=
    if s = "c1" then
      some (sampleClaims JWTIssuer (some (43207 * jwt.Second)) (some (7 * jwt.Second)) "7")
    else if s = "c2" then
      some (sampleClaims "someone_else" (some (43207 * jwt.Second)) (some (7 * jwt.Second)) "7")
    else if s = "c3" then some (sampleClaims "someone_else" none none "7")
    else none
  hmacSign _ s key := key ++ ":" ++ String.mk (s.data.filter (fun c => c ≠ '.'))
  hmacVerify _ s sig key := sig = key ++ ":" ++ String.mk (s.data.filter (fun c => c ≠ '.'))

/-- An environment with secret `k`, a clock at second 8, a password check that accepts only
the password `test-1`, and one stored file. -/
def sampleEnv : Env where
  P := samplePrimitives
  secret := "k"
  now := 8 * jwt.Second
  bcryptMatches _ pwd := pwd = "test-1"
  openFile path := if path = "./saved_images/a.png" then .ok "PNG" else .error (.other "open")

/-- A server on `localhost:3000` with user 7 (`alice`), who owns one image, and one image of
user 8. -/
def sampleServer : APIServer where
  db :=
    { users := [{ ID := 7, Username := "alice", PasswordHash := "hash" }]
      images := [{ ID := 1, UserID := 7, ImagePath := "a.png", ImageURL := "k1" },
                 { ID := 2, UserID := 8, ImagePath := "b.png", ImageURL := "k2" }] }
  listenAddr := "localhost:3000"

/-- The user `alice` with the given id. -/
def sampleUser (id : Int) : User :=
  { ID := id, Username := "alice", PasswordHash := "hash" }

/-- A request with the given method, `Authorization` header and `id` query parameter. -/
def sampleRequest (method auth id : String) : Request :=
  { Method := method, Authorization := auth, queryID := id, jsonBody := .error .ErrSyntax }

/-- A login request with a JSON body. -/
def sampleLogin (username password : String) : Request :=
  { Method := "POST", Authorization := "", queryID := "",
    jsonBody := .ok { Username := username, Password := password } }

/-- An inner operation that writes to the response, to make an invocation visible. -/
def sampleInner : APIAuthFunc := fun _ w _ => writeJSON w (.upload "done")

/-- What the abstract primitives are taken to do on the token issued for `claims` under
`key`: the header and claims segments decode back (dates as they read from JSON), no segment
contains a dot (they are base64url text), and the HS512 signature verifies under the key that
made it. -/
def jwt.Primitives.RoundTrips (P : jwt.Primitives) (claims : jwt.RegisteredClaims)
    (key : String) : Prop :=
  P.decodeHeader (P.encodeHeader "HS512") = some "HS512"
    ∧ P.decodeClaims (P.encodeClaims claims) = some claims.onWire
    ∧ '.' ∉ (P.encodeHeader "HS512").data
    ∧ '.' ∉ (P.encodeClaims claims).data
    ∧ '.' ∉ (P.hmacSign "HS512" (P.encodeHeader "HS512" ++ "." ++ P.encodeClaims claims) key).data
    ∧ P.hmacVerify "HS512" (P.encodeHeader "HS512" ++ "." ++ P.encodeClaims claims)
        (P.hmacSign "HS512" (P.encodeHeader "HS512" ++ "." ++ P.encodeClaims claims) key) key
        = true

instance (P : jwt.Primitives) (claims : jwt.RegisteredClaims) (key : String) :
    Decidable (P.RoundTrips claims key) := by
  unfold jwt.Primitives.RoundTrips
  infer_instance

/-- What the abstract HMAC is taken to do with two keys: a signature made with `key'` verifies
under `key` only if the two keys are the same. -/
def jwt.Primitives.KeyBinding (P : jwt.Primitives) (key key' : String) : Prop :=
  ∀ alg s, P.hmacVerify alg s (P.hmacSign alg s key') key = true → key' = key

/-! ## Lemmas: the response writer and the middleware -/

theorem status_writeJSON_WriteHeader (w : ResponseWriter) (code : Nat) (v : Payload)
    (hw : w.status = none) :
    (writeJSON (w.WriteHeader code) v).1.status = some code := by
  simp [writeJSON, ResponseWriter.Write, ResponseWriter.WriteHeader, ResponseWriter.SetHeader, hw]

theorem status_httpError (w : ResponseWriter) (msg : String) (code : Nat)
    (hw : w.status = none) :
    (httpError w msg code).status = some code := by
  simp [httpError, ResponseWriter.Write, ResponseWriter.WriteHeader, ResponseWriter.SetHeader, hw]

/-- The middleware's answer to a two-component header whose token does not verify. -/
theorem authMiddleware_of_invalid (E : Env) (f : APIAuthFunc) (w : ResponseWriter)
    (r : Request) (scheme token : String)
    (hsplit : Split r.Authorization ' ' = [scheme, token])
    (hinvalid : (VerifyJWTToken E.P E.secret E.now token).2 = false) :
    authMiddleware E f w r
      = (w, some (.status { Err := some .ErrUnauthorized, Status := StatusUnauthorized })) := by
  unfold authMiddleware
  simp only [hsplit, List.length_cons, List.length_nil, List.getD_cons_succ, List.getD_cons_zero]
  rcases hv : VerifyJWTToken E.P E.secret E.now token with ⟨c, ok⟩
  rw [hv] at hinvalid
  simp only at hinvalid
  subst hinvalid
  simp

/-- The middleware's answer to a header that does not have exactly two components. -/
theorem authMiddleware_of_malformed (E : Env) (f : APIAuthFunc) (w : ResponseWriter)
    (r : Request) (hlen : (Split r.Authorization ' ').length ≠ 2) :
    authMiddleware E f w r = (w, some (.plain .ErrUnauthorized)) := by
  unfold authMiddleware
  simp [hlen]

/-- For every header without exactly two components the handler answers 500: the bare
`ErrUnauthorized` is not a `*StatusError`, so `makeHandler` takes its last branch. -/
theorem makeHandler_authMiddleware_of_malformed (E : Env) (f : APIAuthFunc)
    (w : ResponseWriter) (r : Request) (hlen : (Split r.Authorization ' ').length ≠ 2)
    (hw : w.status = none) :
    (makeHandler (authMiddleware E f) w r).status = some StatusInternalServerError := by
  unfold makeHandler
  rw [authMiddleware_of_malformed E f w r hlen]
  exact status_httpError w _ _ hw

/-! ## Lemmas: tokens -/

theorem splitChars_of_not_mem (sep : Char) (a : List Char) (h : sep ∉ a) :
    splitChars sep a = [a] := by
  induction a with
  | nil => rfl
  | cons c cs ih =>
    have hc : c ≠ sep := fun e => h (by simp [e])
    have hcs : sep ∉ cs := fun e => h (by simp [e])
    simp [splitChars, hc, ih hcs]

theorem splitChars_append (sep : Char) (a b : List Char) (h : sep ∉ a) :
    splitChars sep (a ++ sep :: b) = a :: splitChars sep b := by
  induction a with
  | nil => simp [splitChars]
  | cons c cs ih =>
    have hc : c ≠ sep := fun e => h (by simp [e])
    have hcs : sep ∉ cs := fun e => h (by simp [e])
    simp [splitChars, hc, ih hcs]

/-- Splitting three dot-free segments joined by dots gives the segments back. -/
theorem Split_three (a b c : String) (ha : '.' ∉ a.data) (hb : '.' ∉ b.data)
    (hc : '.' ∉ c.data) :
    Split (a ++ "." ++ b ++ "." ++ c) '.' = [a, b, c] := by
  have hdata : (a ++ "." ++ b ++ "." ++ c).data = a.data ++ '.' :: (b.data ++ '.' :: c.data) := by
    simp [String.data_append]
  unfold Split
  rw [hdata, splitChars_append _ _ _ ha, splitChars_append _ _ _ hb,
    splitChars_of_not_mem _ _ hc]
  rfl

/-- Sufficient conditions for `VerifyJWTToken` to accept: only the segment structure, the
method, the three date checks and the signature are involved. -/
theorem VerifyJWTToken_of_parts (P : jwt.Primitives) (secret : String) (now : Int)
    (token h c sig alg : String) (claims : jwt.RegisteredClaims)
    (hsplit : Split token '.' = [h, c, sig])
    (hheader : P.decodeHeader h = some alg)
    (hclaims : P.decodeClaims c = some claims)
    (halg : alg ∈ ["HS256", "HS384", "HS512"])
    (hvalid : claims.Valid now = true)
    (hsig : P.hmacVerify alg (h ++ "." ++ c) sig secret = true) :
    VerifyJWTToken P secret now token = (some claims, true) := by
  unfold VerifyJWTToken jwt.ParseWithClaims
  simp only [hsplit, hheader, hclaims]
  have hm : jwt.GetSigningMethod alg = some (.HMAC alg) := by
    unfold jwt.GetSigningMethod
    rw [if_pos halg]
  simp [hm, jwt.SigningMethod.Verify, hvalid, hsig]

/-- What a successful `ParseWithClaims` implies about the token string. -/
theorem ParseWithClaims_ok_parts (P : jwt.Primitives) (key : String) (now : Int)
    (token : String) (tkn : jwt.Token) (hok : jwt.ParseWithClaims P now token key = .ok tkn) :
    ∃ h c sig alg, Split token '.' = [h, c, sig]
      ∧ P.decodeHeader h = some alg
      ∧ P.decodeClaims c = some tkn.Claims
      ∧ alg ∈ ["HS256", "HS384", "HS512"]
      ∧ tkn.Claims.Valid now = true
      ∧ P.hmacVerify alg (h ++ "." ++ c) sig key = true
      ∧ tkn.Valid = true := by
  unfold jwt.ParseWithClaims at hok
  split at hok
  · rename_i h c sig hsplit
    split at hok
    · rename_i alg claims hheader hclaims
      cases hm : jwt.GetSigningMethod alg with
      | none => simp [hm] at hok
      | some method =>
        simp only [hm] at hok
        by_cases hcond : (claims.Valid now && method.Verify P (h ++ "." ++ c) sig key) = true
        · rw [if_pos hcond] at hok
          simp only [Bool.and_eq_true] at hcond
          cases method with
          | HMAC a =>
            have ha : a = alg ∧ alg ∈ ["HS256", "HS384", "HS512"] := by
              unfold jwt.GetSigningMethod at hm
              split at hm
              · rename_i hin
                simp at hm
                exact ⟨hm.symm, hin⟩
              · split at hm <;> simp at hm
            obtain ⟨rfl, hin⟩ := ha
            injection hok with hok
            subst hok
            refine ⟨h, c, sig, a, hsplit, hheader, hclaims, hin, hcond.1, ?_, rfl⟩
            simpa [jwt.SigningMethod.Verify] using hcond.2
          | keyTyped a => simp [jwt.SigningMethod.Verify] at hcond
        · rw [if_neg hcond] at hok
          simp at hok
    · simp at hok
  · simp at hok

/-- Necessary conditions for `VerifyJWTToken` to accept. -/
theorem VerifyJWTToken_valid_parts (P : jwt.Primitives) (secret : String) (now : Int)
    (token : String) (hok : (VerifyJWTToken P secret now token).2 = true) :
    ∃ h c sig alg claims, Split token '.' = [h, c, sig]
      ∧ P.decodeHeader h = some alg
      ∧ P.decodeClaims c = some claims
      ∧ alg ∈ ["HS256", "HS384", "HS512"]
      ∧ claims.Valid now = true
      ∧ P.hmacVerify alg (h ++ "." ++ c) sig secret = true
      ∧ VerifyJWTToken P secret now token = (some claims, true) := by
  unfold VerifyJWTToken at hok ⊢
  cases hp : jwt.ParseWithClaims P now token secret with
  | error e => simp [hp] at hok
  | ok tkn =>
    obtain ⟨h, c, sig, alg, h1, h2, h3, h4, h5, h6, h7⟩ :=
      ParseWithClaims_ok_parts P secret now token tkn hp
    exact ⟨h, c, sig, alg, tkn.Claims, h1, h2, h3, h4, h5, h6, by simp [h7]⟩

/-! ## Authorization gate -/

/-- C1: when the `Authorization` header splits on single spaces into exactly two components
and the second one fails `VerifyJWTToken`, `authMiddleware f` returns the `StatusError` with
status 401 and `ErrUnauthorized` and hands back the response untouched, whatever `f` is (so `f`
was not run), and `makeHandler` answers with status 401 and the JSON form of that error. -/
theorem authMiddleware_rejects_invalid_token (E : Env) (f : APIAuthFunc) (w : ResponseWriter)
    (r : Request) (scheme token : String)
    (hsplit : Split r.Authorization ' ' = [scheme, token])
    (hinvalid : (VerifyJWTToken E.P E.secret E.now token).2 = false)
    (hw : w.status = none) :
    authMiddleware E f w r
        = (w, some (.status { Err := some .ErrUnauthorized, Status := StatusUnauthorized }))
      ∧ (makeHandler (authMiddleware E f) w r).status = some 401
      ∧ (makeHandler (authMiddleware E f) w r).status ≠ some 500
      ∧ (makeHandler (authMiddleware E f) w r).body
          = w.body ++ [.statusError { Err := some .ErrUnauthorized, Status := 401 }] := by
  have hmid := authMiddleware_of_invalid E f w r scheme token hsplit hinvalid
  have hstatus : (makeHandler (authMiddleware E f) w r).status = some 401 := by
    unfold makeHandler
    rw [hmid]
    exact status_writeJSON_WriteHeader w _ _ hw
  refine ⟨hmid, hstatus, ?_, ?_⟩
  · rw [hstatus]; decide
  · unfold makeHandler
    rw [hmid]
    simp [writeJSON, ResponseWriter.Write, ResponseWriter.WriteHeader,
      ResponseWriter.SetHeader, hw, StatusUnauthorized]

/-- Witness for C1: the request `Authorization: Bearer garbage`. -/
theorem authMiddleware_rejects_invalid_token_witness :
    authMiddleware sampleEnv sampleInner ResponseWriter.fresh
          (sampleRequest "POST" "Bearer garbage" "")
        = (ResponseWriter.fresh,
            some (.status { Err := some .ErrUnauthorized, Status := StatusUnauthorized }))
      ∧ (makeHandler (authMiddleware sampleEnv sampleInner) ResponseWriter.fresh
          (sampleRequest "POST" "Bearer garbage" "")).status = some 401
      ∧ (makeHandler (authMiddleware sampleEnv sampleInner) ResponseWriter.fresh
          (sampleRequest "POST" "Bearer garbage" "")).status ≠ some 500
      ∧ (makeHandler (authMiddleware sampleEnv sampleInner) ResponseWriter.fresh
          (sampleRequest "POST" "Bearer garbage" "")).body
          = ResponseWriter.fresh.body
            ++ [.statusError { Err := some .ErrUnauthorized, Status := 401 }] :=
  authMiddleware_rejects_invalid_token sampleEnv sampleInner ResponseWriter.fresh
    (sampleRequest "POST" "Bearer garbage" "") "Bearer" "garbage" (by decide) (by decide) rfl

/-- C2: a request without an `Authorization` header, one with the single component `Bearer`
and one with three components all make `authMiddleware` return the bare `ErrUnauthorized`
without running the inner operation, and `makeHandler` answers each with status 500, while
the two-component header with an invalid token is answered with 401. -/
theorem malformed_header_answered_with_500 :
    authMiddleware sampleEnv sampleInner ResponseWriter.fresh (sampleRequest "GET" "" "")
        = (ResponseWriter.fresh, some (.plain .ErrUnauthorized))
      ∧ (makeHandler (authMiddleware sampleEnv sampleInner) ResponseWriter.fresh
          (sampleRequest "GET" "" "")).status = some 500
      ∧ (makeHandler (authMiddleware sampleEnv sampleInner) ResponseWriter.fresh
          (sampleRequest "GET" "Bearer" "")).status = some 500
      ∧ (makeHandler (authMiddleware sampleEnv sampleInner) ResponseWriter.fresh
          (sampleRequest "GET" "Bearer a b" "")).status = some 500
      ∧ (makeHandler (authMiddleware sampleEnv sampleInner) ResponseWriter.fresh
          (sampleRequest "GET" "Bearer garbage" "")).status = some 401 := by
  decide

/-! ## Session token codec -/

/-- A token whose claims carry an expiry that is not after the current time is rejected. -/
theorem VerifyJWTToken_expired (P : jwt.Primitives) (secret : String) (now : Int)
    (token h c sig : String) (claims : jwt.RegisteredClaims) (e : Int)
    (hsplit : Split token '.' = [h, c, sig]) (hclaims : P.decodeClaims c = some claims)
    (hexp : claims.ExpiresAt = some e) (hpast : e ≤ now) :
    VerifyJWTToken P secret now token = (none, false) := by
  cases hv : (VerifyJWTToken P secret now token).2 with
  | false =>
    unfold VerifyJWTToken at hv ⊢
    cases hp : jwt.ParseWithClaims P now token secret with
    | error err => rfl
    | ok tkn =>
      obtain ⟨_, _, _, _, _, _, _, _, _, _, h7⟩ :=
        ParseWithClaims_ok_parts P secret now token tkn hp
      simp [hp, h7] at hv
  | true =>
    obtain ⟨h', c', sig', alg, claims', h1, _, h3, _, h5, _, _⟩ :=
      VerifyJWTToken_valid_parts P secret now token hv
    rw [hsplit] at h1
    simp only [List.cons.injEq, and_true] at h1
    obtain ⟨rfl, rfl, rfl⟩ := h1
    rw [hclaims] at h3
    injection h3 with h3
    subst h3
    simp [jwt.RegisteredClaims.Valid, jwt.verifyExp, hexp] at h5
    omega

/-- A rejected token comes with a nil claims pointer. -/
theorem VerifyJWTToken_invalid (P : jwt.Primitives) (secret : String) (now : Int)
    (token : String) (hv : (VerifyJWTToken P secret now token).2 = false) :
    VerifyJWTToken P secret now token = (none, false) := by
  unfold VerifyJWTToken at hv ⊢
  cases hp : jwt.ParseWithClaims P now token secret with
  | error err => rfl
  | ok tkn =>
    obtain ⟨_, _, _, _, _, _, _, _, _, _, h7⟩ :=
      ParseWithClaims_ok_parts P secret now token tkn hp
    simp [hp, h7] at hv

/-- The sample primitives bind their key: the signature starts with the key. -/
theorem samplePrimitives_keyBinding (key key' : String) :
    samplePrimitives.KeyBinding key key' := by
  intro alg s hverify
  simp only [samplePrimitives, decide_eq_true_eq] at hverify
  have hdata := congrArg String.data hverify
  simp only [String.data_append] at hdata
  have hkeys : key'.data = key.data :=
    List.append_cancel_right (List.append_cancel_right hdata)
  exact String.ext hkeys

/-- C3 (as amended): `VerifyJWTToken` returns valid=true only if the token has three
segments, its header names an HMAC method, its signature verifies against the configured
secret and, when its claims carry an expires-at, the current time is strictly before it. In
particular a token whose expires-at is not after the current time is rejected, and so is a
token whose signature was made with a secret different from the configured one, for an HMAC
that binds its key. -/
theorem VerifyJWTToken_valid_only_if (P : jwt.Primitives) (secret : String) (now : Int)
    (token : String) :
    ((VerifyJWTToken P secret now token).2 = true →
        ∃ h c sig alg claims, Split token '.' = [h, c, sig]
          ∧ P.decodeHeader h = some alg
          ∧ alg ∈ ["HS256", "HS384", "HS512"]
          ∧ P.hmacVerify alg (h ++ "." ++ c) sig secret = true
          ∧ P.decodeClaims c = some claims
          ∧ (∀ e, claims.ExpiresAt = some e → now < e)
          ∧ VerifyJWTToken P secret now token = (some claims, true))
      ∧ (∀ (h c sig : String) (claims : jwt.RegisteredClaims) (e : Int),
          Split token '.' = [h, c, sig] → P.decodeClaims c = some claims →
          claims.ExpiresAt = some e → e ≤ now →
          VerifyJWTToken P secret now token = (none, false))
      ∧ (∀ (h c sig secret' : String),
          Split token '.' = [h, c, sig] → secret' ≠ secret → P.KeyBinding secret secret' →
          (∀ alg, P.decodeHeader h = some alg →
            sig = P.hmacSign alg (h ++ "." ++ c) secret') →
          VerifyJWTToken P secret now token = (none, false)) := by
  refine ⟨?_, ?_, ?_⟩
  · intro hok
    obtain ⟨h, c, sig, alg, claims, h1, h2, h3, h4, h5, h6, h7⟩ :=
      VerifyJWTToken_valid_parts P secret now token hok
    refine ⟨h, c, sig, alg, claims, h1, h2, h4, h6, h3, ?_, h7⟩
    intro e he
    simp [jwt.RegisteredClaims.Valid, jwt.verifyExp, he] at h5
    exact h5.1.1
  · intro h c sig claims e hsplit hclaims hexp hpast
    exact VerifyJWTToken_expired P secret now token h c sig claims e hsplit hclaims hexp hpast
  · intro h c sig secret' hsplit hne hbind hsigned
    apply VerifyJWTToken_invalid
    cases hv : (VerifyJWTToken P secret now token).2 with
    | false => rfl
    | true =>
      exfalso
      obtain ⟨h', c', sig', alg, claims, h1, h2, _, _, _, h6, _⟩ :=
        VerifyJWTToken_valid_parts P secret now token hv
      rw [hsplit] at h1
      simp only [List.cons.injEq, and_true] at h1
      obtain ⟨rfl, rfl, rfl⟩ := h1
      rw [hsigned alg h2] at h6
      exact hne (hbind alg _ h6)

/-- Witness for C3: the token of user 7 signed with the configured secret `k` is valid at
second 8 and rejected at its expiry, second 43207; the same token signed with the secret `k2`
is rejected. -/
theorem VerifyJWTToken_valid_only_if_witness :
    (∃ h c sig alg claims, Split "hHS512.c1.k:hHS512c1" '.' = [h, c, sig]
        ∧ samplePrimitives.decodeHeader h = some alg
        ∧ alg ∈ ["HS256", "HS384", "HS512"]
        ∧ samplePrimitives.hmacVerify alg (h ++ "." ++ c) sig "k" = true
        ∧ samplePrimitives.decodeClaims c = some claims
        ∧ (∀ e, claims.ExpiresAt = some e → 8 * jwt.Second < e)
        ∧ VerifyJWTToken samplePrimitives "k" (8 * jwt.Second) "hHS512.c1.k:hHS512c1"
            = (some claims, true))
      ∧ VerifyJWTToken samplePrimitives "k" (43207 * jwt.Second) "hHS512.c1.k:hHS512c1"
          = (none, false)
      ∧ VerifyJWTToken samplePrimitives "k" (8 * jwt.Second) "hHS512.c1.k2:hHS512c1"
          = (none, false) :=
  ⟨(VerifyJWTToken_valid_only_if samplePrimitives "k" (8 * jwt.Second)
      "hHS512.c1.k:hHS512c1").1 (by decide),
    (VerifyJWTToken_valid_only_if samplePrimitives "k" (43207 * jwt.Second)
      "hHS512.c1.k:hHS512c1").2.1 "hHS512" "c1" "k:hHS512c1"
      (sampleClaims JWTIssuer (some (43207 * jwt.Second)) (some (7 * jwt.Second)) "7")
      (43207 * jwt.Second) (by decide) (by decide) (by decide) (by decide),
    (VerifyJWTToken_valid_only_if samplePrimitives "k" (8 * jwt.Second)
      "hHS512.c1.k2:hHS512c1").2.2 "hHS512" "c1" "k2:hHS512c1" "k2" (by decide) (by decide)
      (samplePrimitives_keyBinding "k" "k2") (fun _ _ => rfl)⟩

/-- C3, counterexample: a correctly signed token whose claims carry no expires-at is accepted,
so valid=true does not imply that the current time is before an expiry of the token. -/
theorem token_without_expiry_accepted :
    VerifyJWTToken samplePrimitives "k" (8 * jwt.Second) "hHS512.c3.k:hHS512c3"
        = (some (sampleClaims "someone_else" none none "7"), true)
      ∧ (sampleClaims "someone_else" none none "7").ExpiresAt = none := by
  decide

/-- The three date checks of `RegisteredClaims.Valid`, written out. -/
theorem Valid_eq_date_checks (claims : jwt.RegisteredClaims) (now : Int) :
    claims.Valid now
      = (claims.ExpiresAt.all (fun e => decide (now < e))
          && claims.IssuedAt.all (fun t => decide (t ≤ now))
          && claims.NotBefore.all (fun t => decide (t ≤ now))) := by
  unfold jwt.RegisteredClaims.Valid jwt.verifyExp jwt.verifyIat jwt.verifyNbf
  cases claims.ExpiresAt <;> cases claims.IssuedAt <;> cases claims.NotBefore <;> rfl

/-- C7 (as amended): `VerifyJWTToken` does not look at the issuer. For a three-segment token
whose claims decode with an issuer other than `test_task_app`, valid is true exactly when the
header names an HMAC method, the current time is before the expires-at and not before the
issued-at and the not-before (each only when present), and the signature verifies under the
configured secret; a valid token is returned with its claims, foreign issuer included. -/
theorem VerifyJWTToken_foreign_issuer (P : jwt.Primitives) (secret : String) (now : Int)
    (token h c sig : String) (claims : jwt.RegisteredClaims)
    (hsplit : Split token '.' = [h, c, sig])
    (hclaims : P.decodeClaims c = some claims)
    (hissuer : claims.Issuer ≠ JWTIssuer) :
    (VerifyJWTToken P secret now token).2
        = (match P.decodeHeader h with
          | none => false
          | some alg =>
            decide (alg ∈ ["HS256", "HS384", "HS512"])
              && claims.ExpiresAt.all (fun e => decide (now < e))
              && claims.IssuedAt.all (fun t => decide (t ≤ now))
              && claims.NotBefore.all (fun t => decide (t ≤ now))
              && P.hmacVerify alg (h ++ "." ++ c) sig secret)
      ∧ ((VerifyJWTToken P secret now token).2 = true →
          ∃ returned, (VerifyJWTToken P secret now token).1 = some returned
            ∧ returned = claims ∧ returned.Issuer ≠ JWTIssuer) := by
  constructor
  · cases hheader : P.decodeHeader h with
    | none =>
      cases hv : (VerifyJWTToken P secret now token).2 with
      | false => rfl
      | true =>
        exfalso
        obtain ⟨h', c', sig', alg', claims', h1, h2, _, _, _, _, _⟩ :=
          VerifyJWTToken_valid_parts P secret now token hv
        rw [hsplit] at h1
        simp only [List.cons.injEq, and_true] at h1
        obtain ⟨rfl, rfl, rfl⟩ := h1
        rw [hheader] at h2
        exact Option.noConfusion h2
    | some alg =>
      simp only
      by_cases hall : (decide (alg ∈ ["HS256", "HS384", "HS512"]) && claims.Valid now
          && P.hmacVerify alg (h ++ "." ++ c) sig secret) = true
      · have hrhs := hall
        rw [Valid_eq_date_checks] at hrhs
        simp only [Bool.and_eq_true, decide_eq_true_eq] at hall
        rw [VerifyJWTToken_of_parts P secret now token h c sig alg claims hsplit hheader
          hclaims hall.1.1 hall.1.2 hall.2]
        simp only [Bool.and_assoc] at hrhs ⊢
        exact hrhs.symm
      · have hrhs : (decide (alg ∈ ["HS256", "HS384", "HS512"])
            && claims.ExpiresAt.all (fun e => decide (now < e))
            && claims.IssuedAt.all (fun t => decide (t ≤ now))
            && claims.NotBefore.all (fun t => decide (t ≤ now))
            && P.hmacVerify alg (h ++ "." ++ c) sig secret) = false := by
          rw [Valid_eq_date_checks] at hall
          simp only [Bool.and_assoc] at hall ⊢
          simpa using hall
        rw [hrhs]
        cases hv : (VerifyJWTToken P secret now token).2 with
        | false => rfl
        | true =>
          exfalso
          apply hall
          obtain ⟨h', c', sig', alg', claims', h1, h2, h3, h4, h5, h6, _⟩ :=
            VerifyJWTToken_valid_parts P secret now token hv
          rw [hsplit] at h1
          simp only [List.cons.injEq, and_true] at h1
          obtain ⟨rfl, rfl, rfl⟩ := h1
          rw [hheader] at h2
          rw [hclaims] at h3
          injection h2 with h2
          injection h3 with h3
          subst h2 h3
          simp only [Bool.and_eq_true, decide_eq_true_eq]
          exact ⟨⟨h4, h5⟩, h6⟩
  · intro hv
    obtain ⟨h', c', sig', alg', claims', h1, _, h3, _, _, _, h7⟩ :=
      VerifyJWTToken_valid_parts P secret now token hv
    rw [hsplit] at h1
    simp only [List.cons.injEq, and_true] at h1
    obtain ⟨rfl, rfl, rfl⟩ := h1
    rw [hclaims] at h3
    injection h3 with h3
    subst h3
    exact ⟨claims, by rw [h7], rfl, hissuer⟩

/-- Witness for C7: a token with issuer `someone_else`, signed with the configured secret. -/
theorem VerifyJWTToken_foreign_issuer_witness :
    (VerifyJWTToken samplePrimitives "k" (8 * jwt.Second) "hHS512.c2.k:hHS512c2").2
        = (match samplePrimitives.decodeHeader "hHS512" with
          | none => false
          | some alg =>
            decide (alg ∈ ["HS256", "HS384", "HS512"])
              && (sampleClaims "someone_else" (some (43207 * jwt.Second))
                  (some (7 * jwt.Second)) "7").ExpiresAt.all
                    (fun e => decide (8 * jwt.Second < e))
              && (sampleClaims "someone_else" (some (43207 * jwt.Second))
                  (some (7 * jwt.Second)) "7").IssuedAt.all
                    (fun t => decide (t ≤ 8 * jwt.Second))
              && (sampleClaims "someone_else" (some (43207 * jwt.Second))
                  (some (7 * jwt.Second)) "7").NotBefore.all
                    (fun t => decide (t ≤ 8 * jwt.Second))
              && samplePrimitives.hmacVerify alg ("hHS512" ++ "." ++ "c2") "k:hHS512c2" "k")
      ∧ ((VerifyJWTToken samplePrimitives "k" (8 * jwt.Second) "hHS512.c2.k:hHS512c2").2
            = true →
          ∃ returned,
            (VerifyJWTToken samplePrimitives "k" (8 * jwt.Second) "hHS512.c2.k:hHS512c2").1
              = some returned
            ∧ returned = sampleClaims "someone_else" (some (43207 * jwt.Second))
                (some (7 * jwt.Second)) "7"
            ∧ returned.Issuer ≠ JWTIssuer) :=
  VerifyJWTToken_foreign_issuer samplePrimitives "k" (8 * jwt.Second) "hHS512.c2.k:hHS512c2"
    "hHS512" "c2" "k:hHS512c2"
    (sampleClaims "someone_else" (some (43207 * jwt.Second)) (some (7 * jwt.Second)) "7")
    (by decide) (by decide) (by decide)

/-- C7, counterexample: a token with issuer `someone_else`, correctly signed and not expired,
is accepted. -/
theorem foreign_issuer_accepted :
    VerifyJWTToken samplePrimitives "k" (8 * jwt.Second) "hHS512.c2.k:hHS512c2"
        = (some (sampleClaims "someone_else" (some (43207 * jwt.Second))
            (some (7 * jwt.Second)) "7"), true)
      ∧ (sampleClaims "someone_else" (some (43207 * jwt.Second)) (some (7 * jwt.Second))
          "7").Issuer ≠ JWTIssuer := by
  decide

/-- Truncating to the second twice is truncating once. -/
theorem NewNumericDate_idem (t : Int) :
    jwt.NewNumericDate (jwt.NewNumericDate t) = jwt.NewNumericDate t := by
  simp only [jwt.NewNumericDate, jwt.Truncate, jwt.TimePrecision, jwt.Second]
  norm_num
  omega

/-- C4 (as amended): with the same secret at issue and at verification, and primitives that
round-trip the issued token, `VerifyJWTToken(NewJWTAccessToken(user).Access)` returns
valid=true for every verification time from the issued-at second up to, but excluding, the
expiry. The returned claims carry the decimal string of `user.ID` in their `ID` field; their
`Subject` field is empty. -/
theorem VerifyJWTToken_NewJWTAccessToken (P : jwt.Primitives) (secret : String)
    (issuedAt verifiedAt : Int) (user : User)
    (hprim : P.RoundTrips (newClaims issuedAt user) secret)
    (hafter : jwt.NewNumericDate issuedAt ≤ verifiedAt)
    (hbefore : verifiedAt < jwt.NewNumericDate (issuedAt + JWTAccessTokenExpirationTime)) :
    ∃ token claims, NewJWTAccessToken P secret issuedAt user = .ok token
      ∧ VerifyJWTToken P secret verifiedAt token.Access = (some claims, true)
      ∧ claims = (newClaims issuedAt user).onWire
      ∧ claims.ID = toString user.ID
      ∧ claims.Subject = "" := by
  obtain ⟨hH, hC, hdH, hdC, hdS, hS⟩ := hprim
  refine ⟨_, (newClaims issuedAt user).onWire, rfl, ?_, rfl, rfl, rfl⟩
  apply VerifyJWTToken_of_parts P secret verifiedAt _ (P.encodeHeader "HS512")
    (P.encodeClaims (newClaims issuedAt user)) _ "HS512" _
    (Split_three _ _ _ hdH hdC hdS) hH hC (by decide) _ hS
  simp only [jwt.RegisteredClaims.Valid, jwt.RegisteredClaims.onWire, newClaims,
    jwt.verifyExp, jwt.verifyIat, jwt.verifyNbf, Option.map_some', Option.map_none',
    NewNumericDate_idem]
  simp [hafter, hbefore]

/-- Witness for C4: user 7, issued 5 ns after second 7, verified at second 8. -/
theorem VerifyJWTToken_NewJWTAccessToken_witness :
    ∃ token claims,
      NewJWTAccessToken samplePrimitives "k" (7 * jwt.Second + 5)
          { ID := 7, Username := "alice", PasswordHash := "hash" } = .ok token
      ∧ VerifyJWTToken samplePrimitives "k" (8 * jwt.Second) token.Access = (some claims, true)
      ∧ claims = (newClaims (7 * jwt.Second + 5)
          { ID := 7, Username := "alice", PasswordHash := "hash" }).onWire
      ∧ claims.ID = toString (7 : Int)
      ∧ claims.Subject = "" :=
  VerifyJWTToken_NewJWTAccessToken samplePrimitives "k" (7 * jwt.Second + 5) (8 * jwt.Second)
    { ID := 7, Username := "alice", PasswordHash := "hash" } (by decide) (by decide) (by decide)

/-- C4, counterexample: for the token issued to user 7 at 5 ns after second 7, verification at
the issue time is valid but the returned `Subject` is empty, not `7`; and verification at
second 6, which is before the expiry, is not valid. -/
theorem issued_token_subject_and_early_use :
    NewJWTAccessToken samplePrimitives "k" (7 * jwt.Second + 5)
          { ID := 7, Username := "alice", PasswordHash := "hash" }
        = .ok { Access := "hHS512.c1.k:hHS512c1" }
      ∧ VerifyJWTToken samplePrimitives "k" (7 * jwt.Second + 5) "hHS512.c1.k:hHS512c1"
        = (some (sampleClaims JWTIssuer (some (43207 * jwt.Second)) (some (7 * jwt.Second))
            "7"), true)
      ∧ (sampleClaims JWTIssuer (some (43207 * jwt.Second)) (some (7 * jwt.Second)) "7").Subject
        ≠ toString (7 : Int)
      ∧ 6 * jwt.Second < 43207 * jwt.Second
      ∧ VerifyJWTToken samplePrimitives "k" (6 * jwt.Second) "hHS512.c1.k:hHS512c1"
        = (none, false) := by
  decide

/-- C8 (as amended): the claim set built by `NewJWTAccessToken` has issuer `test_task_app`,
audience `[user.Username]`, issued-at equal to now, and expires-at equal to now plus 12 hours
rounded down to a whole second, which is at most issued-at plus 12 hours and less than a second
below it. -/
theorem newClaims_fields (P : jwt.Primitives) (secret : String) (now : Int) (user : User) :
    NewJWTAccessToken P secret now user
        = .ok (Token.mk (P.encodeHeader "HS512" ++ "." ++ P.encodeClaims (newClaims now user)
            ++ "." ++ P.hmacSign "HS512"
              (P.encodeHeader "HS512" ++ "." ++ P.encodeClaims (newClaims now user)) secret))
      ∧ (newClaims now user).Issuer = "test_task_app"
      ∧ (newClaims now user).Audience = [user.Username]
      ∧ (newClaims now user).IssuedAt = some now
      ∧ (newClaims now user).ExpiresAt
          = some (jwt.Truncate (now + 12 * jwt.Hour) jwt.Second)
      ∧ jwt.Truncate (now + 12 * jwt.Hour) jwt.Second ≤ now + 12 * jwt.Hour
      ∧ now + 12 * jwt.Hour - jwt.Second < jwt.Truncate (now + 12 * jwt.Hour) jwt.Second
      ∧ jwt.Truncate (now + 12 * jwt.Hour) jwt.Second % jwt.Second = 0 := by
  refine ⟨rfl, rfl, rfl, rfl, ?_, ?_, ?_, ?_⟩
  · simp [newClaims, jwt.NewNumericDate, jwt.TimePrecision, JWTAccessTokenExpirationTime,
      mul_comm]
  all_goals
    simp only [jwt.Truncate, jwt.Hour, jwt.Second]
    norm_num
    omega

/-- C8, counterexample: at 1 ns after the epoch the issued-at is 1 ns and the expires-at is
exactly 12 hours after the epoch, not issued-at plus 12 hours. -/
theorem newClaims_expiry_truncated :
    (newClaims 1 { ID := 7, Username := "alice", PasswordHash := "hash" }).IssuedAt = some 1
      ∧ (newClaims 1 { ID := 7, Username := "alice", PasswordHash := "hash" }).ExpiresAt
        = some (12 * jwt.Hour)
      ∧ (newClaims 1 { ID := 7, Username := "alice", PasswordHash := "hash" }).ExpiresAt
        ≠ some (1 + 12 * jwt.Hour) := by
  decide

/-! ## Handlers -/

/-- No string starts with both `http://` and `https://`, so the condition of the loop in
`HandleGetAllImages` holds for every string. -/
theorem prefix_condition_always (url : String) :
    (!HasPrefix url "http://" || !HasPrefix url "https://") = true := by
  unfold HasPrefix
  have h1 : "http://".data = ['h', 't', 't', 'p', ':', '/', '/'] := rfl
  have h2 : "https://".data = ['h', 't', 't', 'p', 's', ':', '/', '/'] := rfl
  rw [h1, h2]
  rcases url.data with _ | ⟨a, _ | ⟨b, _ | ⟨c, _ | ⟨d, _ | ⟨e, l⟩⟩⟩⟩⟩
  · simp [List.isPrefixOf]
  · simp [List.isPrefixOf]
  · simp [List.isPrefixOf]
  · simp [List.isPrefixOf]
  · simp [List.isPrefixOf]
  · by_cases he : e = ':'
    · subst he
      simp [List.isPrefixOf]
    · have he2 : ¬ ':' = e := fun h => he h.symm
      simp [List.isPrefixOf, he2]

/-- The loop body of `HandleGetAllImages` always prepends `http://`. -/
theorem imageURL_eq (listenAddr stored : String) :
    imageURL listenAddr stored = "http://" ++ listenAddr ++ "/?id=" ++ stored := by
  unfold imageURL
  simp only [prefix_condition_always, if_true]
  simp [String.append_assoc]

/-- The URL listed for an image is never the key of that image. -/
theorem imageURL_ne (listenAddr stored : String) : imageURL listenAddr stored ≠ stored := by
  rw [imageURL_eq]
  intro h
  have hlen := congrArg String.length h
  simp only [String.length_append] at hlen
  have h7 : "http://".length = 7 := by decide
  omega

/-- Looking up the URL listed for an image never yields that image. -/
theorem GetImageByURL_listed (pq : PostgreSQLDatabase) (listenAddr : String) (img : Image) :
    pq.GetImageByURL (imageURL listenAddr img.ImageURL) ≠ .ok img := by
  unfold PostgreSQLDatabase.GetImageByURL
  intro h
  split at h
  · rename_i i hfind
    injection h with h
    subst h
    have hp := List.find?_some hfind
    simp only [decide_eq_true_eq] at hp
    exact imageURL_ne listenAddr i.ImageURL hp.symm
  · simp at h

/-- C5: on a GET request whose verified claims carry an id that parses to `u`, when the image
stored under the requested key belongs to another user, `HandleGetImage` returns the
`StatusError` with status 401 and `ErrUnauthorized` and leaves the response untouched (no
header set, no image bytes written); this is the very error `authMiddleware` returns for any
request with an invalid token, and `makeHandler` turns it into a 401 whose body is the JSON
form of the error only. -/
theorem HandleGetImage_owner_mismatch (E : Env) (s : APIServer)
    (claims : jwt.RegisteredClaims) (w : ResponseWriter) (r : Request) (u : Int) (img : Image)
    (hmethod : r.Method = "GET")
    (hid : ParseInt32 claims.ID = .ok u)
    (himg : s.db.GetImageByURL r.queryID = .ok img)
    (howner : img.UserID ≠ u) :
    s.HandleGetImage E claims w r
        = (w, some (.status { Err := some .ErrUnauthorized, Status := 401 }))
      ∧ (∀ (E' : Env) (f : APIAuthFunc) (w' : ResponseWriter) (r' : Request)
          (scheme token : String), Split r'.Authorization ' ' = [scheme, token] →
          (VerifyJWTToken E'.P E'.secret E'.now token).2 = false →
          (authMiddleware E' f w' r').2 = (s.HandleGetImage E claims w r).2)
      ∧ (makeHandler (s.HandleGetImage E claims) ResponseWriter.fresh r).status = some 401
      ∧ (makeHandler (s.HandleGetImage E claims) ResponseWriter.fresh r).body
          = [.statusError { Err := some .ErrUnauthorized, Status := 401 }] := by
  have hres : ∀ w0, s.HandleGetImage E claims w0 r
      = (w0, some (.status { Err := some .ErrUnauthorized, Status := 401 })) := by
    intro w0
    unfold APIServer.HandleGetImage
    simp [hmethod, hid, himg, howner, StatusUnauthorized]
  refine ⟨hres w, ?_, ?_, ?_⟩
  · intro E' f w' r' scheme token hsplit hinvalid
    rw [authMiddleware_of_invalid E' f w' r' scheme token hsplit hinvalid, hres w]
    rfl
  · unfold makeHandler
    rw [hres]
    rfl
  · unfold makeHandler
    rw [hres]
    rfl

/-- Witness for C5: user 7 asks for the image stored under `k2`, which belongs to user 8. -/
theorem HandleGetImage_owner_mismatch_witness :
    sampleServer.HandleGetImage sampleEnv (sampleClaims JWTIssuer none none "7")
          ResponseWriter.fresh (sampleRequest "GET" "" "k2")
        = (ResponseWriter.fresh, some (.status { Err := some .ErrUnauthorized, Status := 401 }))
      ∧ (∀ (E' : Env) (f : APIAuthFunc) (w' : ResponseWriter) (r' : Request)
          (scheme token : String), Split r'.Authorization ' ' = [scheme, token] →
          (VerifyJWTToken E'.P E'.secret E'.now token).2 = false →
          (authMiddleware E' f w' r').2
            = (sampleServer.HandleGetImage sampleEnv (sampleClaims JWTIssuer none none "7")
                ResponseWriter.fresh (sampleRequest "GET" "" "k2")).2)
      ∧ (makeHandler (sampleServer.HandleGetImage sampleEnv
            (sampleClaims JWTIssuer none none "7")) ResponseWriter.fresh
            (sampleRequest "GET" "" "k2")).status = some 401
      ∧ (makeHandler (sampleServer.HandleGetImage sampleEnv
            (sampleClaims JWTIssuer none none "7")) ResponseWriter.fresh
            (sampleRequest "GET" "" "k2")).body
          = [.statusError { Err := some .ErrUnauthorized, Status := 401 }] :=
  HandleGetImage_owner_mismatch sampleEnv sampleServer (sampleClaims JWTIssuer none none "7")
    ResponseWriter.fresh (sampleRequest "GET" "" "k2") 7
    { ID := 2, UserID := 8, ImagePath := "b.png", ImageURL := "k2" }
    (by decide) (by decide) (by decide) (by decide)

/-- C6 (as amended): on a POST login request with a well-formed JSON body, `HandleLogin`
returns status 404 with the lookup error when the user lookup finds no user, and status 401
with `ErrUnauthorized` when the user exists but the password does not match the stored hash;
in both cases the response is left untouched, so no token is written. -/
theorem HandleLogin_failures (E : Env) (s : APIServer) (w : ResponseWriter) (r : Request)
    (req : HandleLoginRequest)
    (hmethod : r.Method = "POST")
    (hbody : r.jsonBody = .ok req) :
    (∀ err, s.db.GetUserByNamePassword req.Username = .error err →
        s.HandleLogin E w r = (w, some (.status { Err := some err, Status := 404 })))
      ∧ (s.db.users.find? (fun u => u.Username = req.Username) = none →
        s.HandleLogin E w r = (w, some (.status { Err := some .ErrNoRows, Status := 404 })))
      ∧ (∀ user, s.db.GetUserByNamePassword req.Username = .ok user →
        verifyPassword E req.Password user.PasswordHash = false →
        s.HandleLogin E w r
          = (w, some (.status { Err := some .ErrUnauthorized, Status := 401 }))) := by
  refine ⟨?_, ?_, ?_⟩
  · intro err herr
    unfold APIServer.HandleLogin
    simp [hmethod, hbody, herr, StatusNotFound]
  · intro hnone
    unfold APIServer.HandleLogin
    simp [hmethod, hbody, PostgreSQLDatabase.GetUserByNamePassword, hnone, StatusNotFound]
  · intro user huser hpwd
    unfold APIServer.HandleLogin
    simp [hmethod, hbody, huser, hpwd, StatusUnauthorized]

/-- Witness for C6: a login request for the unknown user `bob`. -/
theorem HandleLogin_failures_witness :
    (∀ err, sampleServer.db.GetUserByNamePassword "bob" = .error err →
        sampleServer.HandleLogin sampleEnv ResponseWriter.fresh (sampleLogin "bob" "test-1")
          = (ResponseWriter.fresh, some (.status { Err := some err, Status := 404 })))
      ∧ (sampleServer.db.users.find? (fun u => u.Username = "bob") = none →
        sampleServer.HandleLogin sampleEnv ResponseWriter.fresh (sampleLogin "bob" "test-1")
          = (ResponseWriter.fresh, some (.status { Err := some .ErrNoRows, Status := 404 })))
      ∧ (∀ user, sampleServer.db.GetUserByNamePassword "bob" = .ok user →
        verifyPassword sampleEnv "test-1" user.PasswordHash = false →
        sampleServer.HandleLogin sampleEnv ResponseWriter.fresh (sampleLogin "bob" "test-1")
          = (ResponseWriter.fresh,
              some (.status { Err := some .ErrUnauthorized, Status := 401 }))) :=
  HandleLogin_failures sampleEnv sampleServer ResponseWriter.fresh (sampleLogin "bob" "test-1")
    { Username := "bob", Password := "test-1" } rfl rfl

/-- C6, counterexample: a login for the unknown user `bob` is answered with status 404 and the
no-rows error, a login for `alice` with a wrong password with status 401 and
`ErrUnauthorized`; the two answers differ. -/
theorem login_unknown_user_differs_from_wrong_password :
    sampleServer.HandleLogin sampleEnv ResponseWriter.fresh (sampleLogin "bob" "test-1")
        = (ResponseWriter.fresh, some (.status { Err := some .ErrNoRows, Status := 404 }))
      ∧ sampleServer.HandleLogin sampleEnv ResponseWriter.fresh (sampleLogin "alice" "wrong")
        = (ResponseWriter.fresh, some (.status { Err := some .ErrUnauthorized, Status := 401 }))
      ∧ sampleServer.HandleLogin sampleEnv ResponseWriter.fresh (sampleLogin "bob" "test-1")
        ≠ sampleServer.HandleLogin sampleEnv ResponseWriter.fresh
            (sampleLogin "alice" "wrong")
      ∧ (makeHandler (sampleServer.HandleLogin sampleEnv) ResponseWriter.fresh
          (sampleLogin "bob" "test-1")).status = some 404
      ∧ (makeHandler (sampleServer.HandleLogin sampleEnv) ResponseWriter.fresh
          (sampleLogin "alice" "wrong")).status = some 401 := by
  decide

/-- C9: user 7 owns the image stored under key `k1`. `HandleGetAllImages` lists it with
`image_url` `http://localhost:3000/?id=k1`; passing that value as the `id` parameter to
`HandleGetImage` under the same claims finds no row and returns status 500 with the no-rows
error, while the stored key `k1` itself serves the file. -/
theorem listed_image_url_not_fetchable :
    sampleServer.HandleGetAllImages (sampleClaims JWTIssuer none none "7")
          ResponseWriter.fresh (sampleRequest "GET" "" "")
        = writeJSON ResponseWriter.fresh (.images
            [{ ID := 1, UserID := 7, ImagePath := "a.png",
               ImageURL := "http://localhost:3000/?id=k1" }])
      ∧ sampleServer.HandleGetImage sampleEnv (sampleClaims JWTIssuer none none "7")
          ResponseWriter.fresh (sampleRequest "GET" "" "http://localhost:3000/?id=k1")
        = (ResponseWriter.fresh, some (.status { Err := some .ErrNoRows, Status := 500 }))
      ∧ (makeHandler (sampleServer.HandleGetImage sampleEnv
            (sampleClaims JWTIssuer none none "7")) ResponseWriter.fresh
            (sampleRequest "GET" "" "http://localhost:3000/?id=k1")).body
        = [.statusError { Err := some .ErrNoRows, Status := 500 }]
      ∧ (sampleServer.HandleGetImage sampleEnv (sampleClaims JWTIssuer none none "7")
          ResponseWriter.fresh (sampleRequest "GET" "" "k1")).1.body = [.file "PNG"] := by
  decide

/-- C10: on a GET request whose claims id parses, for every listen address and every list of
images the store returns, `HandleGetAllImages` writes, as JSON with status 200, the list in
which each image keeps its id, user id and path and has `image_url` equal to `http://`
followed by the listen address, `/?id=` and the stored `image_url`; the list has the same
length and order. -/
theorem HandleGetAllImages_urls (s : APIServer) (claims : jwt.RegisteredClaims)
    (w : ResponseWriter) (r : Request) (u : Int) (images : List Image)
    (hmethod : r.Method = "GET")
    (hid : ParseInt32 claims.ID = .ok u)
    (himages : s.db.GetAllUserImages u = .ok images) :
    ∃ out : List Image,
      s.HandleGetAllImages claims w r = writeJSON w (.images out)
      ∧ out = images.map (fun i =>
          { ID := i.ID, UserID := i.UserID, ImagePath := i.ImagePath,
            ImageURL := "http://" ++ s.listenAddr ++ "/?id=" ++ i.ImageURL })
      ∧ out.length = images.length
      ∧ (∀ (k : Nat) (img : Image), images[k]? = some img →
          out[k]? = some (Image.mk img.ID img.UserID img.ImagePath
            ("http://" ++ s.listenAddr ++ "/?id=" ++ img.ImageURL)))
      ∧ (w.status = none → (writeJSON w (.images out)).1.status = some 200)
      ∧ (writeJSON w (.images out)).1.body = w.body ++ [.images out] := by
  refine ⟨images.map (fun i =>
      { ID := i.ID, UserID := i.UserID, ImagePath := i.ImagePath,
        ImageURL := "http://" ++ s.listenAddr ++ "/?id=" ++ i.ImageURL }), ?_, rfl, ?_, ?_, ?_, ?_⟩
  · unfold APIServer.HandleGetAllImages
    simp [hmethod, hid, himages, imageURL_eq]
  · simp
  · intro k img hk
    simp [hk]
  · intro hw
    simp [writeJSON, ResponseWriter.Write, ResponseWriter.WriteHeader,
      ResponseWriter.SetHeader, hw, StatusOK]
  · cases hst : w.status <;>
      simp [writeJSON, ResponseWriter.Write, ResponseWriter.WriteHeader,
        ResponseWriter.SetHeader, hst]

/-- Witness for C10: a server whose listen address already starts with `http://`. -/
theorem HandleGetAllImages_urls_witness :
    ∃ out : List Image,
      APIServer.HandleGetAllImages { db := sampleServer.db, listenAddr := "http://localhost" }
          (sampleClaims JWTIssuer none none "7") ResponseWriter.fresh
          (sampleRequest "GET" "" "")
        = writeJSON ResponseWriter.fresh (.images out)
      ∧ out = [Image.mk 1 7 "a.png" "k1"].map (fun i =>
          Image.mk i.ID i.UserID i.ImagePath
            ("http://" ++ "http://localhost" ++ "/?id=" ++ i.ImageURL))
      ∧ out.length = [Image.mk 1 7 "a.png" "k1"].length
      ∧ (∀ (k : Nat) (img : Image),
          [Image.mk 1 7 "a.png" "k1"][k]? = some img →
          out[k]? = some (Image.mk img.ID img.UserID img.ImagePath
            ("http://" ++ "http://localhost" ++ "/?id=" ++ img.ImageURL)))
      ∧ (ResponseWriter.fresh.status = none →
          (writeJSON ResponseWriter.fresh (.images out)).1.status = some 200)
      ∧ (writeJSON ResponseWriter.fresh (.images out)).1.body
          = ResponseWriter.fresh.body ++ [.images out] :=
  HandleGetAllImages_urls { db := sampleServer.db, listenAddr := "http://localhost" }
    (sampleClaims JWTIssuer none none "7") ResponseWriter.fresh (sampleRequest "GET" "" "") 7
    [{ ID := 1, UserID := 7, ImagePath := "a.png", ImageURL := "k1" }]
    (by decide) (by decide) (by decide)

/-! ## The id carried by the claims -/

/-- The decimal digit characters are digits for `parseUintLoop`, with their value. -/
theorem digitChar_digit (k : Nat) (hk : k < 10) :
    ('0' ≤ Nat.digitChar k ∧ Nat.digitChar k ≤ '9')
      ∧ (Nat.digitChar k).toNat - '0'.toNat = k := by
  interval_cases k <;> decide

/-- One step of the digit loop on a decimal digit within range. -/
theorem parseUintLoop_digit (k n : Nat) (tail : List Char) (hk : k < 10)
    (hn : n * 10 + k ≤ 2 ^ 32 - 1) :
    parseUintLoop (2 ^ 32 - 1) (Nat.digitChar k :: tail) n
      = parseUintLoop (2 ^ 32 - 1) tail (n * 10 + k) := by
  obtain ⟨hd, hv⟩ := digitChar_digit k hk
  rw [parseUintLoop]
  simp only [hd, and_self, if_true, hv]
  have h1 : ¬ n ≥ (2 ^ 64 - 1) / 10 + 1 := by norm_num at hn ⊢; omega
  have h2 : ¬ n * 10 + k > 2 ^ 32 - 1 := by omega
  simp only [h1, h2, if_false]


/-- One step of the digit loop on a decimal digit that takes the value out of range. -/
theorem parseUintLoop_digit_range (k n : Nat) (tail : List Char) (hk : k < 10)
    (hn : 2 ^ 32 - 1 < n * 10 + k) :
    parseUintLoop (2 ^ 32 - 1) (Nat.digitChar k :: tail) n = .error .ErrRange := by
  obtain ⟨hd, hv⟩ := digitChar_digit k hk
  rw [parseUintLoop]
  simp only [hd, and_self, if_true, hv]
  by_cases h1 : n ≥ (2 ^ 64 - 1) / 10 + 1
  · simp only [h1, if_true]
  · have h2 : n * 10 + k > 2 ^ 32 - 1 := hn
    simp only [h1, h2, if_false, if_true]

/-- Reading back the decimal digits of `m`, when `m` fits 32 bits: the loop ends with
accumulator `m`. -/
theorem parseUintLoop_toDigitsCore (m : Nat) :
    ∀ (fuel : Nat) (tail : List Char), m < fuel → m ≤ 2 ^ 32 - 1 →
      parseUintLoop (2 ^ 32 - 1) (Nat.toDigitsCore 10 fuel m tail) 0
        = parseUintLoop (2 ^ 32 - 1) tail m := by
  induction m using Nat.strong_induction_on with
  | _ m ih =>
    intro fuel tail hfuel hm
    cases fuel with
    | zero => omega
    | succ fuel =>
      rw [Nat.toDigitsCore]
      by_cases h0 : m / 10 = 0
      · simp only [h0, if_true]
        have hlt : m < 10 := by omega
        rw [Nat.mod_eq_of_lt hlt, parseUintLoop_digit m 0 tail hlt (by omega)]
        simp
      · simp only [h0, if_false]
        rw [ih (m / 10) (by omega) fuel _ (by omega) (by omega),
          parseUintLoop_digit (m % 10) (m / 10) tail (Nat.mod_lt _ (by decide)) (by omega)]
        congr 1
        omega

/-- Reading back the decimal digits of `m`, when `m` does not fit 32 bits: a range error. -/
theorem parseUintLoop_toDigitsCore_range (m : Nat) :
    ∀ (fuel : Nat) (tail : List Char), m < fuel → 2 ^ 32 - 1 < m →
      parseUintLoop (2 ^ 32 - 1) (Nat.toDigitsCore 10 fuel m tail) 0 = .error .ErrRange := by
  induction m using Nat.strong_induction_on with
  | _ m ih =>
    intro fuel tail hfuel hm
    cases fuel with
    | zero => omega
    | succ fuel =>
      rw [Nat.toDigitsCore]
      have h0 : ¬ m / 10 = 0 := by norm_num at hm; omega
      simp only [h0, if_false]
      by_cases hq : m / 10 ≤ 2 ^ 32 - 1
      · rw [parseUintLoop_toDigitsCore (m / 10) fuel _ (by omega) hq,
          parseUintLoop_digit_range (m % 10) (m / 10) tail (Nat.mod_lt _ (by decide))
            (by omega)]
      · exact ih (m / 10) (by omega) fuel _ (by omega) (by omega)

/-- The decimal digits of a number start with a digit character. -/
theorem toDigitsCore_head (fuel m : Nat) (tail : List Char) (hfuel : 0 < fuel) :
    ∃ k cs, k < 10 ∧ Nat.toDigitsCore 10 fuel m tail = Nat.digitChar k :: cs := by
  induction fuel generalizing m tail with
  | zero => omega
  | succ fuel ih =>
    rw [Nat.toDigitsCore]
    by_cases h0 : m / 10 = 0
    · simp only [h0, if_true]
      exact ⟨m % 10, tail, Nat.mod_lt _ (by decide), rfl⟩
    · simp only [h0, if_false]
      cases fuel with
      | zero => exact ⟨m % 10, tail, Nat.mod_lt _ (by decide), by rw [Nat.toDigitsCore]⟩
      | succ fuel => exact ih (m / 10) _ (by omega)


/-- A decimal digit character is neither sign character. -/
theorem digitChar_not_sign (k : Nat) (hk : k < 10) :
    Nat.digitChar k ≠ '+' ∧ Nat.digitChar k ≠ '-' := by
  interval_cases k <;> decide

/-- The characters of the decimal string of an integer. -/
theorem toString_int_data (i : Int) :
    (toString i).data
      = match i with
        | Int.ofNat m => Nat.toDigits 10 m
        | Int.negSucc m => '-' :: Nat.toDigits 10 (m + 1) := by
  cases i <;> rfl

/-- The digit loop on the decimal digits of a natural number. -/
theorem parseUintLoop_toDigits (m : Nat) :
    parseUintLoop (2 ^ 32 - 1) (Nat.toDigits 10 m) 0
      = if m ≤ 2 ^ 32 - 1 then .ok m else .error .ErrRange := by
  unfold Nat.toDigits
  by_cases hfit : m ≤ 2 ^ 32 - 1
  · rw [parseUintLoop_toDigitsCore m (m + 1) [] (by omega) hfit, parseUintLoop, if_pos hfit]
  · rw [parseUintLoop_toDigitsCore_range m (m + 1) [] (by omega) (by omega), if_neg hfit]

/-- `ParseInt32` on the decimal digits of a natural number. -/
theorem ParseInt32_digits (m : Nat) (s : String) (hs : s.data = Nat.toDigits 10 m) :
    ParseInt32 s = if m < 2 ^ 31 then .ok (m : Int) else .error .ErrRange := by
  obtain ⟨k, cs, hk, hhead⟩ := toDigitsCore_head (m + 1) m [] (by omega)
  have hdata : s.data = Nat.digitChar k :: cs := by rw [hs, Nat.toDigits, hhead]
  have hparse : parseUintLoop (2 ^ 32 - 1) (Nat.digitChar k :: cs) 0
      = if m ≤ 2 ^ 32 - 1 then .ok m else .error .ErrRange := by
    rw [← hhead]
    exact parseUintLoop_toDigits m
  obtain ⟨hplus, hminus⟩ := digitChar_not_sign k hk
  unfold ParseInt32
  rw [hdata]
  simp only [hplus, hminus, or_self, if_false]
  by_cases hfit : m ≤ 2 ^ 32 - 1
  · rw [if_pos hfit] at hparse
    simp only [hparse]
    by_cases hlt : m < 2 ^ 31
    · have h1 : ¬ m ≥ 2 ^ 31 := by omega
      simp only [not_false_eq_true, true_and, h1, if_false, false_and, if_pos hlt]
    · have h1 : m ≥ 2 ^ 31 := by omega
      simp only [not_false_eq_true, true_and, h1, if_true, if_neg hlt]
  · rw [if_neg hfit] at hparse
    have hlt : ¬ m < 2 ^ 31 := by omega
    simp only [hparse, if_neg hlt]

/-- `ParseInt32` on a minus sign followed by the decimal digits of a natural number. -/
theorem ParseInt32_neg_digits (m : Nat) (s : String)
    (hs : s.data = '-' :: Nat.toDigits 10 m) :
    ParseInt32 s = if m ≤ 2 ^ 31 then .ok (- (m : Int)) else .error .ErrRange := by
  obtain ⟨k, cs, hk, hhead⟩ := toDigitsCore_head (m + 1) m [] (by omega)
  have hne : Nat.toDigits 10 m = Nat.digitChar k :: cs := by rw [Nat.toDigits, hhead]
  have hparse : parseUintLoop (2 ^ 32 - 1) (Nat.digitChar k :: cs) 0
      = if m ≤ 2 ^ 32 - 1 then .ok m else .error .ErrRange := by
    rw [← hne]
    exact parseUintLoop_toDigits m
  unfold ParseInt32
  rw [hs, hne]
  simp only [or_true, if_true]
  by_cases hfit : m ≤ 2 ^ 32 - 1
  · rw [if_pos hfit] at hparse
    simp only [hparse]
    by_cases hle : m ≤ 2 ^ 31
    · have h1 : ¬ m > 2 ^ 31 := by omega
      simp only [not_true_eq_false, false_and, if_false, true_and, h1, if_pos hle]
    · have h1 : m > 2 ^ 31 := by omega
      simp only [not_true_eq_false, false_and, if_false, true_and, h1, if_true, if_neg hle]
  · rw [if_neg hfit] at hparse
    have hle : ¬ m ≤ 2 ^ 31 := by omega
    simp only [hparse, if_neg hle]

/-- `ParseInt32` on the decimal string of an integer: the integer when it fits a signed 32-bit
value, a range error otherwise. -/
theorem ParseInt32_toString (i : Int) :
    ParseInt32 (toString i)
      = if -2 ^ 31 ≤ i ∧ i < 2 ^ 31 then .ok i else .error .ErrRange := by
  cases i with
  | ofNat m =>
    rw [ParseInt32_digits m _ (toString_int_data (Int.ofNat m))]
    simp only [Int.ofNat_eq_coe]
    by_cases h : m < 2 ^ 31
    · rw [if_pos h, if_pos (by omega)]
    · rw [if_neg h, if_neg (by omega)]
  | negSucc m =>
    rw [ParseInt32_neg_digits (m + 1) _ (toString_int_data (Int.negSucc m))]
    have hneg : Int.negSucc m = - ((m + 1 : Nat) : Int) := rfl
    rw [hneg]
    by_cases h : m + 1 ≤ 2 ^ 31
    · rw [if_pos h, if_pos (by omega)]
    · rw [if_neg h, if_neg (by omega)]

/-- C11: the id string `NewJWTAccessToken` writes into the claims is the decimal string of
`user.ID`, also after the claims went through the token. On a GET request, when `user.ID` lies
in the signed 32-bit range the handlers' parse recovers exactly `user.ID`: `HandleGetAllImages`
lists the images whose owner is `user.ID` and `HandleGetImage` compares the owner of the
image it found with `user.ID`. When `user.ID` lies outside the range the parse fails with a
range error and both handlers return it with status 500 and leave the response untouched,
whatever the store holds. -/
theorem claims_id_recovered (E : Env) (s : APIServer) (now : Int) (user : User)
    (w : ResponseWriter) (r : Request) (hmethod : r.Method = "GET") :
    (newClaims now user).ID = toString user.ID
      ∧ (newClaims now user).onWire.ID = toString user.ID
      ∧ (-2 ^ 31 ≤ user.ID ∧ user.ID < 2 ^ 31 →
          ParseInt32 (newClaims now user).onWire.ID = .ok user.ID
          ∧ s.HandleGetAllImages (newClaims now user).onWire w r
            = writeJSON w (.images ((s.db.images.filter (fun i => i.UserID = user.ID)).map
                (fun i => Image.mk i.ID i.UserID i.ImagePath
                  (imageURL s.listenAddr i.ImageURL))))
          ∧ s.HandleGetImage E (newClaims now user).onWire w r
            = match s.db.GetImageByURL r.queryID with
              | .error err => (w, some (.status (StatusError.mk (some err) 500)))
              | .ok img =>
                if img.UserID ≠ user.ID then
                  (w, some (.status (StatusError.mk (some .ErrUnauthorized) 401)))
                else
                  match E.openFile ("./saved_images/" ++ img.ImagePath) with
                  | .error err =>
                    (w.SetHeader "Content-Type" "application/octet-stream",
                      some (.status (StatusError.mk (some err) 500)))
                  | .ok content =>
                    ((w.SetHeader "Content-Type" "application/octet-stream").Write
                      (.file content), none))
      ∧ (user.ID < -2 ^ 31 ∨ 2 ^ 31 ≤ user.ID →
          ParseInt32 (newClaims now user).onWire.ID = .error .ErrRange
          ∧ ∀ s' : APIServer,
            s'.HandleGetAllImages (newClaims now user).onWire w r
              = (w, some (.status (StatusError.mk (some .ErrRange) 500)))
            ∧ s'.HandleGetImage E (newClaims now user).onWire w r
              = (w, some (.status (StatusError.mk (some .ErrRange) 500)))) := by
  have hID : (newClaims now user).onWire.ID = toString user.ID := rfl
  refine ⟨rfl, rfl, ?_, ?_⟩
  · intro hrange
    have hparse : ParseInt32 (newClaims now user).onWire.ID = .ok user.ID := by
      rw [hID, ParseInt32_toString, if_pos hrange]
    refine ⟨hparse, ?_, ?_⟩
    · unfold APIServer.HandleGetAllImages
      simp [hmethod, hparse, PostgreSQLDatabase.GetAllUserImages]
    · unfold APIServer.HandleGetImage
      simp only [hmethod, hparse, ne_eq, not_true_eq_false, if_false]
      cases s.db.GetImageByURL r.queryID with
      | error err => simp [StatusInternalServerError]
      | ok img =>
        by_cases hown : img.UserID = user.ID
        · simp only [hown, not_true_eq_false, if_false]
          cases E.openFile ("./saved_images/" ++ img.ImagePath) <;>
            simp [StatusInternalServerError]
        · simp [hown, StatusUnauthorized]
  · intro hrange
    have hparse : ParseInt32 (newClaims now user).onWire.ID = .error .ErrRange := by
      rw [hID, ParseInt32_toString, if_neg (by omega)]
    refine ⟨hparse, ?_⟩
    intro s'
    constructor
    · unfold APIServer.HandleGetAllImages
      simp [hmethod, hparse, StatusInternalServerError]
    · unfold APIServer.HandleGetImage
      simp [hmethod, hparse, StatusInternalServerError]

/-- Witness for C11: a GET request for the image `k1` with the claims of a user whose id is
2147483648, one above the largest signed 32-bit value. -/
theorem claims_id_recovered_witness :
    (newClaims 0 (sampleUser 2147483648)).ID = toString (sampleUser 2147483648).ID
      ∧ (newClaims 0 (sampleUser 2147483648)).onWire.ID = toString (sampleUser 2147483648).ID
      ∧ (-2 ^ 31 ≤ (sampleUser 2147483648).ID ∧ (sampleUser 2147483648).ID < 2 ^ 31 →
          ParseInt32 (newClaims 0 (sampleUser 2147483648)).onWire.ID
            = .ok (sampleUser 2147483648).ID
          ∧ sampleServer.HandleGetAllImages (newClaims 0 (sampleUser 2147483648)).onWire
              ResponseWriter.fresh (sampleRequest "GET" "" "k1")
            = writeJSON ResponseWriter.fresh (.images ((sampleServer.db.images.filter
                (fun i => i.UserID = (sampleUser 2147483648).ID)).map
                (fun i => Image.mk i.ID i.UserID i.ImagePath
                  (imageURL sampleServer.listenAddr i.ImageURL))))
          ∧ sampleServer.HandleGetImage sampleEnv (newClaims 0 (sampleUser 2147483648)).onWire
              ResponseWriter.fresh (sampleRequest "GET" "" "k1")
            = match sampleServer.db.GetImageByURL (sampleRequest "GET" "" "k1").queryID with
              | .error err =>
                (ResponseWriter.fresh, some (.status (StatusError.mk (some err) 500)))
              | .ok img =>
                if img.UserID ≠ (sampleUser 2147483648).ID then
                  (ResponseWriter.fresh,
                    some (.status (StatusError.mk (some .ErrUnauthorized) 401)))
                else
                  match sampleEnv.openFile ("./saved_images/" ++ img.ImagePath) with
                  | .error err =>
                    (ResponseWriter.fresh.SetHeader "Content-Type" "application/octet-stream",
                      some (.status (StatusError.mk (some err) 500)))
                  | .ok content =>
                    ((ResponseWriter.fresh.SetHeader "Content-Type"
                      "application/octet-stream").Write (.file content), none))
      ∧ ((sampleUser 2147483648).ID < -2 ^ 31 ∨ 2 ^ 31 ≤ (sampleUser 2147483648).ID →
          ParseInt32 (newClaims 0 (sampleUser 2147483648)).onWire.ID = .error .ErrRange
          ∧ ∀ s' : APIServer,
            s'.HandleGetAllImages (newClaims 0 (sampleUser 2147483648)).onWire
                ResponseWriter.fresh (sampleRequest "GET" "" "k1")
              = (ResponseWriter.fresh, some (.status (StatusError.mk (some .ErrRange) 500)))
            ∧ s'.HandleGetImage sampleEnv (newClaims 0 (sampleUser 2147483648)).onWire
                ResponseWriter.fresh (sampleRequest "GET" "" "k1")
              = (ResponseWriter.fresh,
                  some (.status (StatusError.mk (some .ErrRange) 500)))) :=
  claims_id_recovered sampleEnv sampleServer 0 (sampleUser 2147483648) ResponseWriter.fresh
    (sampleRequest "GET" "" "k1") rfl

/-- The boundary ids evaluated: the largest and smallest signed 32-bit values parse back, their
neighbours give a range error, and the listing handler answers the latter with status 500. -/
theorem claims_id_boundaries :
    ParseInt32 (newClaims 0 (sampleUser 2147483647)).ID = .ok 2147483647
      ∧ ParseInt32 (newClaims 0 (sampleUser (-2147483648))).ID = .ok (-2147483648)
      ∧ ParseInt32 (newClaims 0 (sampleUser 2147483648)).ID = .error .ErrRange
      ∧ ParseInt32 (newClaims 0 (sampleUser (-2147483649))).ID = .error .ErrRange
      ∧ (makeHandler (sampleServer.HandleGetAllImages (newClaims 0 (sampleUser 2147483648)))
          ResponseWriter.fresh (sampleRequest "GET" "" "")).status = some 500 := by
  decide

end TestTask
